import Mathlib

/-!
Shallow embedding of the t2v-model2vec-models embeddings service
(src/app.py), an OpenAI-compatible HTTP gateway over a local
text-embedding backend.

Modelling conventions:
* Each 32-bit float produced by the backend is represented by its
  IEEE-754 bit pattern, a `Nat` (intended range `< 2^32`).  Every claim
  below concerns ordering, truncation and byte-level packing of the
  vectors, never float arithmetic, so the bit-pattern view is faithful:
  `numpy.float32.tobytes` serialises exactly these 32-bit patterns in
  little-endian order.
* Results of `os.getenv` are `Option String` parameters (`none` when
  the variable is unset).
* The embedding backend (`Vectorizer.vectorize`, defined in
  `vectorizer.py`, which is not part of src/) is an explicit function
  parameter `List String → List (List Nat)` mapping the ordered input
  texts to one row of float32 bit patterns per text.  The metadata
  record is abstracted to its `model_path` entry, an `Option String`.
* The opaque `config` payload is passed through uninterpreted by the
  code and is irrelevant to every claim, so it is omitted from the model.
* Python string truthiness (`if not model_name`) is modelled explicitly.
  Python string primitives are modelled structurally on the character
  list, restricted to ASCII whitespace where whitespace matters:
  `str.strip` is `pyStrip`, `str.split(sep)` is `pySplitOnChar`,
  no-argument `str.split()` (split on whitespace runs, dropping empties)
  is `pySplitWs`, `str.startswith` is `pyStartsWith`, and `"/" in s` is
  membership of the character in the character list.
-/

namespace T2V

/-- Model of Python `str.strip()` restricted to ASCII whitespace: drop
leading and trailing whitespace characters. -/
def pyStrip (s : String) : String :=
  String.mk (((s.toList.dropWhile Char.isWhitespace).reverse.dropWhile Char.isWhitespace).reverse)

/-- Splitting a character list on a separator character, Python
`str.split(sep)` semantics: every separator occurrence cuts, empty
segments are kept. -/
def splitOnCharAux (sep : Char) : List Char → List (List Char)
  | [] => [[]]
  | c :: rest =>
      if c = sep then [] :: splitOnCharAux sep rest
      else
        match splitOnCharAux sep rest with
        | [] => [[c]]
        | w :: ws => (c :: w) :: ws

/-- Model of Python `str.split(sep)` for a one-character separator. -/
def pySplitOnChar (sep : Char) (s : String) : List String :=
  (splitOnCharAux sep s.toList).map String.mk

/-- Model of Python `str.startswith`. -/
def pyStartsWith (pre s : String) : Bool :=
  List.isPrefixOf pre.toList s.toList

/-- Model of `get_allowed_tokens` (src/app.py lines 24-28).  The argument is
the value of the environment variable `AUTHENTICATION_ALLOWED_TOKENS`
(`os.getenv` with default `""`).  The walrus condition
`(tokens := ....strip()) and tokens != ""` holds exactly when the stripped
string is non-empty; the returned list is `tokens.strip().split(",")`. -/
def get_allowed_tokens (env : Option String) : Option (List String) :=
  let tokens := pyStrip (env.getD "")
  if tokens ≠ "" then some (pySplitOnChar ',' (pyStrip tokens)) else none

/-- Model of `is_authorized` (src/app.py lines 31-36).  `allowedTokens` is the
process-wide allow-list (`none` when unconfigured); `auth` is the bearer
credential string carried by the request, when present. -/
def is_authorized (allowedTokens : Option (List String)) (auth : Option String) : Bool :=
  match allowedTokens, auth with
  | none, _ => true
  | some _, none => false
  | some toks, some cred => decide (cred ∈ toks)

/-- Model of `get_available_model` (src/app.py lines 74-85).  `envModelName`
is `os.getenv("MODEL_NAME")`; `metaModelPath` is the `model_path` entry of
the metadata record, when present. -/
def get_available_model (envModelName : Option String) (metaModelPath : Option String) : String :=
  let model_name :=
    match envModelName with
    | some s => if s ≠ "" then s else metaModelPath.getD "minishlab/potion-base-8M"
    | none => metaModelPath.getD "minishlab/potion-base-8M"
  if model_name.toList.contains '/' && !(pyStartsWith "minishlab/" model_name) then
    "minishlab/potion-base-8M"
  else
    model_name

/-- The `input` field of a request: a single string or a list of strings. -/
inductive PyInput where
  | str (s : String)
  | list (l : List String)
deriving DecidableEq

/-- Model of the request body `VectorInput`.  The field defaults live in the
pydantic model in `vectorizer.py`, which is absent from src/.
Modelled from the spec: `encoding_format` (enum `float` | `base64`,
default `float`) and `dimensions` (optional integer, absent by default). -/
structure VectorInput where
  input : PyInput
  model : String
  encoding_format : String := "float"
  dimensions : Option Int := none
deriving DecidableEq

/-- The sequence form of the input, as used both for the `vec.vectorize`
call (src/app.py lines 139-142) and for token accounting
(src/app.py lines 176-179): a scalar string becomes a one-element
sequence, a list is used as is. -/
def inputTexts (item : VectorInput) : List String :=
  match item.input with
  | .str s => [s]
  | .list l => l

/-- Model of the dimension truncation step (src/app.py lines 144-146):
`if item.dimensions and item.dimensions > 0: vector = vector[:, :item.dimensions]`.
Python truthiness makes `None` and `0` skip the branch, and a negative
value fails `> 0`; numpy column slicing keeps at most the existing width,
which is `List.take` on each row. -/
def applyDimensions (dims : Option Int) (v : List (List Nat)) : List (List Nat) :=
  match dims with
  | some d => if 0 < d then v.map (List.take d.toNat) else v
  | none => v

/-- Character `n` of the standard base64 alphabet
`A-Z a-z 0-9 + /` used by `base64.b64encode`. -/
def b64Char (n : Nat) : Char :=
  if n < 26 then Char.ofNat (65 + n)
  else if n < 52 then Char.ofNat (97 + (n - 26))
  else if n < 62 then Char.ofNat (48 + (n - 52))
  else if n = 62 then '+'
  else '/'

/-- Position of a character in the standard base64 alphabet. -/
def b64Index (c : Char) : Option Nat :=
  let n := c.toNat
  if 65 ≤ n ∧ n ≤ 90 then some (n - 65)
  else if 97 ≤ n ∧ n ≤ 122 then some (26 + (n - 97))
  else if 48 ≤ n ∧ n ≤ 57 then some (52 + (n - 48))
  else if n = 43 then some 62
  else if n = 47 then some 63
  else none

/-- Model of `base64.b64encode` on a byte list (each element intended
`< 256`): groups of three bytes become four alphabet characters; a final
group of one or two bytes is padded with `=`. -/
def b64encodeChars : List Nat → List Char
  | [] => []
  | [a] => [b64Char (a / 4), b64Char (a % 4 * 16), '=', '=']
  | [a, b] => [b64Char (a / 4), b64Char (a % 4 * 16 + b / 16), b64Char (b % 16 * 4), '=']
  | a :: b :: c :: rest =>
      b64Char (a / 4) :: b64Char (a % 4 * 16 + b / 16) ::
        b64Char (b % 16 * 4 + c / 64) :: b64Char (c % 64) :: b64encodeChars rest

/-- Model of `base64.b64decode` on a character list: four characters at a
time, honouring `=` padding, producing the byte list. -/
def b64decodeChars : List Char → Option (List Nat)
  | [] => some []
  | w :: x :: y :: z :: rest =>
      match b64Index w, b64Index x with
      | some a, some b =>
          if y = '=' ∧ z = '=' ∧ rest = [] then
            some [a * 4 + b / 16]
          else
            match b64Index y with
            | some c =>
                if z = '=' ∧ rest = [] then
                  some [a * 4 + b / 16, b % 16 * 16 + c / 4]
                else
                  match b64Index z with
                  | some d =>
                      (b64decodeChars rest).map fun tail =>
                        (a * 4 + b / 16) :: (b % 16 * 16 + c / 4) :: (c % 4 * 64 + d) :: tail
                  | none => none
            | none => none
      | _, _ => none
  | _ => none

/-- The four little-endian bytes of one float32 bit pattern, as produced
by `numpy.ndarray.tobytes` on a `float32` array element. -/
def packF32LE (bits : Nat) : List Nat :=
  [bits % 256, bits / 256 % 256, bits / 65536 % 256, bits / 16777216 % 256]

/-- The byte buffer `np.array(embedding, dtype=np.float32).tobytes()`
(src/app.py line 158-159): the rows float32 values packed as contiguous
little-endian 4-byte groups. -/
def rowBytes (row : List Nat) : List Nat :=
  (row.map packF32LE).flatten

/-- Reading a byte buffer back as little-endian float32 bit patterns
(the decode direction of the round-trip law). -/
def unpackF32LE : List Nat → Option (List Nat)
  | [] => some []
  | b0 :: b1 :: b2 :: b3 :: rest =>
      (unpackF32LE rest).map fun tail =>
        (b0 + b1 * 256 + b2 * 65536 + b3 * 16777216) :: tail
  | _ => none

/-- Model of `base64.b64encode(arr.tobytes()).decode("utf-8")`
(src/app.py lines 158-159) for one row. -/
def b64encodeRow (row : List Nat) : String :=
  String.mk (b64encodeChars (rowBytes row))

/-- Decoding a base64 entry back into float32 bit patterns: base64-decode
the string, then read the bytes as little-endian float32. -/
def decodeBase64F32 (s : String) : Option (List Nat) :=
  (b64decodeChars s.toList).bind unpackF32LE

/-- The wire form of one embedding: a plain numeric array (float32 bit
patterns) or a base64 string. -/
inductive EmbeddingValue where
  | floats (values : List Nat)
  | b64 (s : String)
deriving DecidableEq

/-- One element of the response `data` array (src/app.py lines 160-173). -/
structure EmbeddingEntry where
  object : String
  index : Nat
  embedding : EmbeddingValue
deriving DecidableEq

/-- Fallback entry used with `List.getD` in statements. -/
def noEntry : EmbeddingEntry :=
  { object := "", index := 0, embedding := .floats [] }

/-- The base64 branch of the encoding loop (src/app.py lines 156-164):
`for i, embedding in enumerate(vector_list)` starting at counter `i`. -/
def b64Entries : Nat → List (List Nat) → List EmbeddingEntry
  | _, [] => []
  | i, row :: rest =>
      { object := "embedding", index := i, embedding := .b64 (b64encodeRow row) }
        :: b64Entries (i + 1) rest

/-- The float branch of the encoding loop (src/app.py lines 166-173). -/
def floatEntries : Nat → List (List Nat) → List EmbeddingEntry
  | _, [] => []
  | i, row :: rest =>
      { object := "embedding", index := i, embedding := .floats row }
        :: floatEntries (i + 1) rest

/-- The encoding-format dispatch (src/app.py lines 151-173). -/
def encodeData (fmt : String) (v : List (List Nat)) : List EmbeddingEntry :=
  if fmt = "base64" then b64Entries 0 v else floatEntries 0 v

/-- Model of no-argument Python `str.split()` restricted to ASCII
whitespace: maximal runs of non-whitespace characters, empties dropped.
`cur` is the current word accumulated in reverse. -/
def pySplitWsAux : List Char → List Char → List (List Char)
  | cur, [] => if cur = [] then [] else [cur.reverse]
  | cur, c :: rest =>
      if c.isWhitespace then
        if cur = [] then pySplitWsAux [] rest
        else cur.reverse :: pySplitWsAux [] rest
      else
        pySplitWsAux (c :: cur) rest

/-- The whitespace-delimited words of a string, as Python `text.split()`. -/
def pySplitWs (s : String) : List (List Char) :=
  pySplitWsAux [] s.toList

/-- `len(text.split())` for one input string. -/
def countTokens (s : String) : Nat :=
  (pySplitWs s).length

/-- The usage sum (src/app.py line 181):
`sum(len(text.split()) for text in input_texts)`. -/
def totalTokens (texts : List String) : Nat :=
  (texts.map countTokens).sum

/-- A response body: a structured error or the embeddings envelope. -/
inductive Body where
  | errorBody (msg : String)
  | success (object : String) (data : List EmbeddingEntry) (model : String)
      (prompt_tokens : Nat) (total_tokens : Nat)
deriving DecidableEq

/-- An HTTP response: status code plus JSON body. -/
structure HttpResponse where
  status : Nat
  body : Body
deriving DecidableEq

/-- Model of the `embed` handler (src/app.py lines 121-198) on a decoded
request.  `vectorize` is the backend; the try/except backend-failure path
(HTTP 500) is outside every claim and the backend is total here. -/
def embed (allowedTokens : Option (List String)) (auth : Option String)
    (envModelName metaModelPath : Option String) (item : VectorInput)
    (vectorize : List String → List (List Nat)) : HttpResponse :=
  if is_authorized allowedTokens auth then
    let available_model := get_available_model envModelName metaModelPath
    if item.model ≠ available_model then
      { status := 400
        body := .errorBody ("Model \x27" ++ item.model ++ "\x27 not found. Available model: \x27"
          ++ available_model ++ "\x27") }
    else if ¬ (item.encoding_format ∈ (["float", "base64"] : List String)) then
      { status := 400, body := .errorBody "encoding_format must be \x27float\x27 or \x27base64\x27" }
    else
      let texts := inputTexts item
      let vector := applyDimensions item.dimensions (vectorize texts)
      let data := encodeData item.encoding_format vector
      let total_tokens := totalTokens texts
      { status := 200, body := .success "list" data item.model total_tokens total_tokens }
  else
    { status := 401, body := .errorBody "Unauthorized" }

/-- Modelled from the spec: the input-shape validation of section 4.3
(check 3) lives in the request model `VectorInput` in `vectorizer.py`,
which is absent from src/.  Per the spec, `input` must be a non-empty
string or a non-empty ordered sequence of strings, and a failure maps to
HTTP 400 with a message naming the offending field. -/
def validateInputShape (input : PyInput) : Option String :=
  match input with
  | .str s => if s = "" then some "input must be a non-empty string or a non-empty array of strings" else none
  | .list l => if l = [] then some "input must be a non-empty string or a non-empty array of strings" else none

/-- Modelled from the spec: the full request pipeline for
`POST /v1/embeddings` including the spec-mandated input-shape validation
(AuthGate, then RequestValidator, then dispatch; sections 2 and 4.3). -/
def handleEmbeddings (allowedTokens : Option (List String)) (auth : Option String)
    (envModelName metaModelPath : Option String) (item : VectorInput)
    (vectorize : List String → List (List Nat)) : HttpResponse :=
  if is_authorized allowedTokens auth then
    match validateInputShape item.input with
    | some msg => { status := 400, body := .errorBody msg }
    | none => embed allowedTokens auth envModelName metaModelPath item vectorize
  else
    { status := 401, body := .errorBody "Unauthorized" }

/-- Written from the words of spec section 4.2 (ModelResolver), for
comparison with `get_available_model`: precedence (non-empty override
wins, else metadata model path, else the default), then the
normalization rule applied regardless of source. -/
def resolveSpec (envModelName metaModelPath : Option String) : String :=
  let candidate :=
    match envModelName with
    | some s => if s ≠ "" then s else metaModelPath.getD "minishlab/potion-base-8M"
    | none => metaModelPath.getD "minishlab/potion-base-8M"
  if candidate.toList.contains '/' && !(pyStartsWith "minishlab/" candidate) then
    "minishlab/potion-base-8M"
  else
    candidate

theorem b64Index_b64Char : ∀ n, n < 64 → b64Index (b64Char n) = some n := by decide

theorem b64Char_ne_pad : ∀ n, n < 64 → b64Char n ≠ '=' := by decide

theorem b64decode_b64encode : ∀ (l : List Nat), (∀ b ∈ l, b < 256) →
    b64decodeChars (b64encodeChars l) = some l
  | [], _ => rfl
  | [a], h => by
      have ha : a < 256 := h a (by simp)
      have h1 := b64Index_b64Char (a / 4) (by omega)
      have h2 := b64Index_b64Char (a % 4 * 16) (by omega)
      simp only [b64encodeChars, b64decodeChars, h1, h2, and_self, if_true,
        Option.some.injEq, List.cons.injEq, and_true]
      omega
  | [a, b], h => by
      have ha : a < 256 := h a (by simp)
      have hb : b < 256 := h b (by simp)
      have h1 := b64Index_b64Char (a / 4) (by omega)
      have h2 := b64Index_b64Char (a % 4 * 16 + b / 16) (by omega)
      have h3 := b64Index_b64Char (b % 16 * 4) (by omega)
      have hne := b64Char_ne_pad (b % 16 * 4) (by omega)
      simp only [b64encodeChars, b64decodeChars, h1, h2, h3]
      rw [if_neg (by rintro ⟨hy, -⟩; exact hne hy)]
      simp only [and_self, if_true, Option.some.injEq, List.cons.injEq, and_true]
      constructor <;> omega
  | a :: b :: c :: rest, h => by
      have ha : a < 256 := h a (by simp)
      have hb : b < 256 := h b (by simp)
      have hc : c < 256 := h c (by simp)
      have ih := b64decode_b64encode rest (fun y hy => h y (by simp [hy]))
      have h1 := b64Index_b64Char (a / 4) (by omega)
      have h2 := b64Index_b64Char (a % 4 * 16 + b / 16) (by omega)
      have h3 := b64Index_b64Char (b % 16 * 4 + c / 64) (by omega)
      have h4 := b64Index_b64Char (c % 64) (by omega)
      have hne3 := b64Char_ne_pad (b % 16 * 4 + c / 64) (by omega)
      have hne4 := b64Char_ne_pad (c % 64) (by omega)
      match rest with
      | [] =>
          simp only [b64encodeChars, b64decodeChars, h1, h2, h3, h4]
          rw [if_neg (by rintro ⟨hy, -⟩; exact hne3 hy)]
          rw [if_neg (by rintro ⟨hz, -⟩; exact hne4 hz)]
          simp only [b64decodeChars, Option.map_some', Option.some.injEq, List.cons.injEq,
            and_true]
          refine ⟨by omega, by omega, by omega⟩
      | r :: rs =>
          simp only [b64encodeChars, b64decodeChars, h1, h2, h3, h4]
          rw [if_neg (by rintro ⟨hy, -⟩; exact hne3 hy)]
          rw [if_neg (by rintro ⟨hz, -⟩; exact hne4 hz)]
          rw [ih]
          simp only [Option.map_some', Option.some.injEq, List.cons.injEq, and_true]
          refine ⟨by omega, by omega, by omega⟩

theorem rowBytes_lt : ∀ (row : List Nat), ∀ b ∈ rowBytes row, b < 256
  | [], b, hb => by simp [rowBytes] at hb
  | x :: rest, b, hb => by
      simp only [rowBytes, List.map_cons, List.flatten_cons, packF32LE, List.cons_append,
        List.nil_append, List.mem_cons] at hb
      rcases hb with h | h | h | h | h
      · omega
      · omega
      · omega
      · omega
      · exact rowBytes_lt rest b (by simpa [rowBytes] using h)

theorem unpack_rowBytes : ∀ (row : List Nat), (∀ x ∈ row, x < 4294967296) →
    unpackF32LE (rowBytes row) = some row
  | [], _ => rfl
  | x :: rest, h => by
      have hx : x < 4294967296 := h x (by simp)
      have ih := unpack_rowBytes rest (fun y hy => h y (by simp [hy]))
      simp only [rowBytes, List.map_cons, List.flatten_cons, packF32LE, List.cons_append,
        List.nil_append, unpackF32LE]
      rw [show ([].append ((List.map packF32LE rest).flatten) : List Nat)
            = (List.map packF32LE rest).flatten from rfl,
        show ((List.map packF32LE rest).flatten : List Nat) = rowBytes rest from rfl, ih]
      simp only [Option.map_some', Option.some.injEq, List.cons.injEq, and_true]
      omega

theorem decodeBase64F32_b64encodeRow (row : List Nat) (h : ∀ x ∈ row, x < 4294967296) :
    decodeBase64F32 (b64encodeRow row) = some row := by
  have hlist : (b64encodeRow row).toList = b64encodeChars (rowBytes row) := rfl
  rw [decodeBase64F32, hlist, b64decode_b64encode _ (rowBytes_lt row), Option.some_bind]
  exact unpack_rowBytes row h

theorem b64Entries_length : ∀ (k : Nat) (v : List (List Nat)), (b64Entries k v).length = v.length
  | _, [] => rfl
  | k, _ :: rest => by simp [b64Entries, b64Entries_length (k + 1) rest]

theorem floatEntries_length : ∀ (k : Nat) (v : List (List Nat)), (floatEntries k v).length = v.length
  | _, [] => rfl
  | k, _ :: rest => by simp [floatEntries, floatEntries_length (k + 1) rest]

theorem encodeData_length (fmt : String) (v : List (List Nat)) :
    (encodeData fmt v).length = v.length := by
  unfold encodeData
  split
  · exact b64Entries_length 0 v
  · exact floatEntries_length 0 v

theorem b64Entries_getD : ∀ (k : Nat) (v : List (List Nat)) (i : Nat), i < v.length →
    (b64Entries k v).getD i noEntry =
      { object := "embedding", index := k + i, embedding := .b64 (b64encodeRow (v.getD i [])) }
  | _, [], i, hi => by simp at hi
  | k, row :: rest, 0, _ => by simp [b64Entries]
  | k, row :: rest, i + 1, hi => by
      have ih := b64Entries_getD (k + 1) rest i (by simpa using hi)
      simp only [b64Entries, List.getD_cons_succ, ih]
      congr 1
      omega

theorem floatEntries_getD : ∀ (k : Nat) (v : List (List Nat)) (i : Nat), i < v.length →
    (floatEntries k v).getD i noEntry =
      { object := "embedding", index := k + i, embedding := .floats (v.getD i []) }
  | _, [], i, hi => by simp at hi
  | k, row :: rest, 0, _ => by simp [floatEntries]
  | k, row :: rest, i + 1, hi => by
      have ih := floatEntries_getD (k + 1) rest i (by simpa using hi)
      simp only [floatEntries, List.getD_cons_succ, ih]
      congr 1
      omega

theorem encodeData_index (fmt : String) (v : List (List Nat)) (i : Nat) (hi : i < v.length) :
    ((encodeData fmt v).getD i noEntry).index = i := by
  unfold encodeData
  split
  · rw [b64Entries_getD 0 v i hi]; simp
  · rw [floatEntries_getD 0 v i hi]; simp

theorem embed_ok_elim {tks : Option (List String)} {auth : Option String}
    {env meta : Option String} {item : VectorInput}
    {vecf : List String → List (List Nat)} {o : String} {d : List EmbeddingEntry}
    {m : String} {p t : Nat}
    (h : embed tks auth env meta item vecf =
      { status := 200, body := .success o d m p t }) :
    is_authorized tks auth = true
    ∧ item.model = get_available_model env meta
    ∧ (item.encoding_format = "float" ∨ item.encoding_format = "base64")
    ∧ o = "list"
    ∧ d = encodeData item.encoding_format (applyDimensions item.dimensions (vecf (inputTexts item)))
    ∧ m = item.model
    ∧ p = totalTokens (inputTexts item)
    ∧ t = totalTokens (inputTexts item) := by
  unfold embed at h
  by_cases hauth : is_authorized tks auth = true
  swap
  · rw [if_neg (by simpa using hauth)] at h
    simp at h
  rw [if_pos (by simpa using hauth)] at h
  by_cases hm : item.model = get_available_model env meta
  swap
  · rw [if_pos hm] at h
    simp at h
  rw [if_neg (not_not_intro hm)] at h
  by_cases hfmt : item.encoding_format ∈ (["float", "base64"] : List String)
  swap
  · rw [if_pos hfmt] at h
    simp at h
  rw [if_neg (not_not_intro hfmt)] at h
  simp only [HttpResponse.mk.injEq, Body.success.injEq, true_and] at h
  simp only [List.mem_cons, List.mem_singleton, List.not_mem_nil, or_false] at hfmt
  refine ⟨hauth, hm, hfmt, h.1.symm, h.2.1.symm, h.2.2.1.symm, h.2.2.2.1.symm, h.2.2.2.2.symm⟩

theorem toList_append (a b : String) : (a ++ b).toList = a.toList ++ b.toList := rfl

/-- C5: when the allow-list is unconfigured `is_authorized` accepts every
credential, including a missing one; when configured it accepts exactly the
requests carrying a credential that is a member of the list (exact string
match); and whenever it rejects, the embed handler answers 401 with body
error "Unauthorized", identically for every backend (no further work). -/
theorem auth_gate_spec :
    (∀ auth, is_authorized none auth = true)
    ∧ (∀ toks auth, is_authorized (some toks) auth = true ↔ ∃ c, auth = some c ∧ c ∈ toks)
    ∧ (∀ tks auth env meta item vecf, is_authorized tks auth = false →
        embed tks auth env meta item vecf = { status := 401, body := .errorBody "Unauthorized" }) := by
  refine ⟨fun auth => by cases auth <;> rfl, fun toks auth => ?_,
    fun tks auth env meta item vecf h => ?_⟩
  · cases auth with
    | none => simp [is_authorized]
    | some c => simp [is_authorized]
  · unfold embed
    rw [if_neg (by simp [h])]

/-- C5 witness: a configured allow-list and a missing credential produce the
401 Unauthorized response. -/
theorem auth_gate_spec_witness :
    embed (some ["secret"]) none none none { input := .str "x", model := "m" } (fun _ => []) =
      { status := 401, body := .errorBody "Unauthorized" } :=
  auth_gate_spec.2.2 (some ["secret"]) none none none _ _ (by decide)

/-- C6: an authorized embeddings request whose model differs from the
resolved model gets HTTP 400 with a message naming both the requested and
the available model, and the response is the same for every backend, so the
backend is never invoked. -/
theorem model_mismatch_400 (tks : Option (List String)) (auth : Option String)
    (env meta : Option String) (item : VectorInput)
    (hauth : is_authorized tks auth = true)
    (hne : item.model ≠ get_available_model env meta) :
    ∀ vecf, embed tks auth env meta item vecf =
      { status := 400,
        body := .errorBody ("Model \x27" ++ item.model ++ "\x27 not found. Available model: \x27"
          ++ get_available_model env meta ++ "\x27") }
    ∧ (∃ pre post, ("Model \x27" ++ item.model ++ "\x27 not found. Available model: \x27"
          ++ get_available_model env meta ++ "\x27").toList
        = pre ++ item.model.toList ++ post)
    ∧ (∃ pre post, ("Model \x27" ++ item.model ++ "\x27 not found. Available model: \x27"
          ++ get_available_model env meta ++ "\x27").toList
        = pre ++ (get_available_model env meta).toList ++ post) := by
  intro vecf
  refine ⟨?_, ⟨"Model \x27".toList,
      ("\x27 not found. Available model: \x27" ++ get_available_model env meta ++ "\x27").toList, ?_⟩,
    ⟨("Model \x27" ++ item.model ++ "\x27 not found. Available model: \x27").toList,
      "\x27".toList, ?_⟩⟩
  · unfold embed
    rw [if_pos (by simpa using hauth), if_pos hne]
  · simp only [toList_append, List.append_assoc]
  · simp only [toList_append, List.append_assoc]

/-- C6 witness: requesting model "invalid-model" against the default
resolution yields the 400 mismatch message naming both models. -/
theorem model_mismatch_400_witness :
    embed none none none none { input := .str "x", model := "invalid-model" } (fun _ => []) =
      { status := 400,
        body := .errorBody
          "Model \x27invalid-model\x27 not found. Available model: \x27minishlab/potion-base-8M\x27" } :=
  ((model_mismatch_400 none none none none _ (by decide) (by decide)) (fun _ => [])).1.trans
    (by decide)

/-- C8: `get_available_model` implements exactly the resolution written in
the spec (environment override wins when present and non-empty, else the
metadata model path, else the hard default, with the namespace
normalization applied regardless of source); consequently the result never
contains a slash outside the `minishlab/` namespace. -/
theorem resolve_matches_spec :
    (∀ env meta, get_available_model env meta = resolveSpec env meta)
    ∧ get_available_model none none = "minishlab/potion-base-8M"
    ∧ (∀ env meta,
        ((get_available_model env meta).toList.contains '/'
          && !(pyStartsWith "minishlab/" (get_available_model env meta))) = false) := by
  refine ⟨fun env meta => rfl, rfl, fun env meta => ?_⟩
  unfold get_available_model
  dsimp only
  split
  · decide
  · next h => simp only [Bool.not_eq_true] at h; exact h

/-- C10: the allow-list is the stripped configuration string split on commas
with the segments kept verbatim, so a credential is accepted iff it equals
one comma-separated segment exactly; "a, b" accepts "a" and " b" (leading
space kept) and rejects "b". -/
theorem allowed_tokens_exact_segments :
    (∀ s cred, pyStrip s = s → s ≠ "" →
      (is_authorized (get_allowed_tokens (some s)) (some cred) = true ↔
        cred ∈ pySplitOnChar ',' s))
    ∧ get_allowed_tokens (some "a, b") = some ["a", " b"]
    ∧ is_authorized (get_allowed_tokens (some "a, b")) (some "a") = true
    ∧ is_authorized (get_allowed_tokens (some "a, b")) (some " b") = true
    ∧ is_authorized (get_allowed_tokens (some "a, b")) (some "b") = false := by
  refine ⟨fun s cred hs hne => ?_, by decide, by decide, by decide, by decide⟩
  unfold get_allowed_tokens
  simp only [Option.getD_some, hs]
  rw [if_pos hne]
  simp [is_authorized]

/-- C10 witness: the general verbatim-segment law instantiated at the
configuration "a, b" and credential "a". -/
theorem allowed_tokens_exact_segments_witness :
    is_authorized (get_allowed_tokens (some "a, b")) (some "a") = true ↔
      "a" ∈ pySplitOnChar ',' "a, b" :=
  allowed_tokens_exact_segments.1 "a, b" "a" (by decide) (by decide)

theorem applyDimensions_length (dims : Option Int) (v : List (List Nat)) :
    (applyDimensions dims v).length = v.length := by
  unfold applyDimensions
  split
  · split <;> simp
  · rfl

/-- C1: every successful embeddings response has exactly one data entry per
input row, in request order, with the i-th entry carrying index i, for
every batch size and for both encoding formats. -/
theorem data_indexed_in_order (tks : Option (List String)) (auth : Option String)
    (env meta : Option String) (item : VectorInput)
    (vecf : List String → List (List Nat)) (o : String) (d : List EmbeddingEntry)
    (m : String) (p t : Nat)
    (hbackend : (vecf (inputTexts item)).length = (inputTexts item).length)
    (hok : embed tks auth env meta item vecf = { status := 200, body := .success o d m p t }) :
    d.length = (inputTexts item).length
    ∧ ∀ i, i < d.length → (d.getD i noEntry).index = i := by
  obtain ⟨-, -, -, -, hd, -, -, -⟩ := embed_ok_elim hok
  subst hd
  have hlen : (applyDimensions item.dimensions (vecf (inputTexts item))).length
      = (inputTexts item).length :=
    (applyDimensions_length _ _).trans hbackend
  constructor
  · rw [encodeData_length, hlen]
  · intro i hi
    rw [encodeData_length] at hi
    exact encodeData_index _ _ i hi

/-- C1 witness: a two-row batch produces two entries with indices 0 and 1. -/
theorem data_indexed_in_order_witness :
    (encodeData "float" (applyDimensions none [[3], [3]])).length
        = (inputTexts { input := .list ["a", "b"], model := "minishlab/potion-base-8M" }).length
    ∧ ((encodeData "float" (applyDimensions none [[3], [3]])).getD 1 noEntry).index = 1 := by
  have h := data_indexed_in_order none none none none
    { input := .list ["a", "b"], model := "minishlab/potion-base-8M" }
    (fun ts => ts.map fun _ => [3]) "list"
    (encodeData "float" (applyDimensions none [[3], [3]]))
    "minishlab/potion-base-8M" 2 2 (by decide) (by decide)
  exact ⟨h.1, h.2 1 (by decide)⟩

/-- C2: with dimensions present and positive every row keeps exactly its
first `dimensions` elements; with dimensions absent, zero or negative the
full width is kept; and when dimensions is at least every row width the
batch is returned unchanged, never padded. -/
theorem dimensions_truncation (d : Int) (v : List (List Nat)) :
    (0 < d → applyDimensions (some d) v = v.map (List.take d.toNat))
    ∧ applyDimensions none v = v
    ∧ (d ≤ 0 → applyDimensions (some d) v = v)
    ∧ (0 < d → (∀ row ∈ v, row.length ≤ d.toNat) → applyDimensions (some d) v = v) := by
  refine ⟨fun hd => ?_, rfl, fun hd => ?_, fun hd hw => ?_⟩
  · simp only [applyDimensions]
    rw [if_pos hd]
  · simp only [applyDimensions]
    rw [if_neg (by omega)]
  · simp only [applyDimensions]
    rw [if_pos hd]
    induction v with
    | nil => rfl
    | cons r rs ih =>
        simp only [List.map_cons]
        rw [List.take_of_length_le (hw r (by simp)), ih (fun x hx => hw x (by simp [hx]))]

/-- C2 witness: dimensions 2 keeps the first two columns; dimensions 9 on
width-3 rows is a no-op. -/
theorem dimensions_truncation_witness :
    applyDimensions (some 2) [[1, 2, 3], [4, 5, 6]] = [[1, 2], [4, 5]]
    ∧ applyDimensions (some 9) [[1, 2, 3]] = [[1, 2, 3]] :=
  ⟨((dimensions_truncation 2 [[1, 2, 3], [4, 5, 6]]).1 (by decide)).trans (by decide),
    (dimensions_truncation 9 [[1, 2, 3]]).2.2.2 (by decide) (by decide)⟩

/-- C4: every successful response reports prompt_tokens equal to
total_tokens, both equal to the sum over the original input strings of
their whitespace-delimited token counts; in particular the inputs
"hello world" and "foo" count 3 together. -/
theorem usage_token_count (tks : Option (List String)) (auth : Option String)
    (env meta : Option String) (item : VectorInput)
    (vecf : List String → List (List Nat)) (o : String) (d : List EmbeddingEntry)
    (m : String) (p t : Nat)
    (hok : embed tks auth env meta item vecf = { status := 200, body := .success o d m p t }) :
    p = t ∧ t = ((inputTexts item).map countTokens).sum
    ∧ totalTokens ["hello world", "foo"] = 3 := by
  obtain ⟨-, -, -, -, -, -, hp, ht⟩ := embed_ok_elim hok
  exact ⟨hp.trans ht.symm, ht, by decide⟩

/-- C4 witness: the request with inputs "hello world" and "foo" reports
3 = 2 + 1 tokens. -/
theorem usage_token_count_witness :
    (3 : Nat) = 3
    ∧ (3 : Nat) =
      ((inputTexts (VectorInput.mk (.list ["hello world", "foo"]) "minishlab/potion-base-8M" "float" none)).map countTokens).sum
    ∧ totalTokens ["hello world", "foo"] = 3 :=
  usage_token_count none none none none
    (VectorInput.mk (.list ["hello world", "foo"]) "minishlab/potion-base-8M" "float" none)
    (fun ts => ts.map fun _ => [1]) "list"
    (encodeData "float" (applyDimensions none [[1], [1]]))
    "minishlab/potion-base-8M" 3 3 (by decide)

theorem floatEntries_mem : ∀ (k : Nat) (v : List (List Nat)) (e : EmbeddingEntry),
    e ∈ floatEntries k v → ∃ vs, e.embedding = .floats vs
  | _, [], e, he => by simp [floatEntries] at he
  | k, r :: rs, e, he => by
      simp only [floatEntries, List.mem_cons] at he
      rcases he with he | he
      · exact ⟨r, by rw [he]⟩
      · exact floatEntries_mem (k + 1) rs e he

/-- C3: for every row of a batch of float32 bit patterns, the base64-format
entry is the base64 encoding of the row packed as contiguous little-endian
32-bit floats, and decoding that string back into float32 values recovers
exactly the values of the float-format entry for the same input, bit for
bit. -/
theorem base64_roundtrip (v : List (List Nat)) (i : Nat)
    (hv : ∀ row ∈ v, ∀ x ∈ row, x < 4294967296) (hi : i < v.length) :
    ((encodeData "base64" v).getD i noEntry).embedding = .b64 (b64encodeRow (v.getD i []))
    ∧ ((encodeData "float" v).getD i noEntry).embedding = .floats (v.getD i [])
    ∧ decodeBase64F32 (b64encodeRow (v.getD i [])) = some (v.getD i []) := by
  have hmem : v.getD i [] ∈ v := by
    rw [List.getD_eq_getElem v [] hi]
    exact List.getElem_mem hi
  refine ⟨?_, ?_, decodeBase64F32_b64encodeRow _ (hv _ hmem)⟩
  · have he : encodeData "base64" v = b64Entries 0 v := by simp [encodeData]
    rw [he, b64Entries_getD 0 v i hi]
  · have he : encodeData "float" v = floatEntries 0 v := by simp [encodeData]
    rw [he, floatEntries_getD 0 v i hi]

/-- C3 witness: the one-row batch [1.0f, -2.0f] (bit patterns 0x3f800000 and
0xc0000000) encodes to a base64 entry that decodes back to the float entry. -/
theorem base64_roundtrip_witness :
    ((encodeData "base64" [[1065353216, 3221225472]]).getD 0 noEntry).embedding
        = .b64 (b64encodeRow ([[1065353216, 3221225472]].getD 0 []))
    ∧ ((encodeData "float" [[1065353216, 3221225472]]).getD 0 noEntry).embedding
        = .floats ([[1065353216, 3221225472]].getD 0 [])
    ∧ decodeBase64F32 (b64encodeRow ([[1065353216, 3221225472]].getD 0 []))
        = some ([[1065353216, 3221225472]].getD 0 []) :=
  base64_roundtrip [[1065353216, 3221225472]] 0 (by decide) (by decide)

/-- C7: an authorized embeddings request whose input is the empty string or
the empty list fails the input-shape validation and the pipeline answers
HTTP 400 with a message naming the input field. -/
theorem empty_input_rejected (tks : Option (List String)) (auth : Option String)
    (env meta : Option String) (item : VectorInput)
    (vecf : List String → List (List Nat))
    (hauth : is_authorized tks auth = true)
    (hempty : item.input = .str "" ∨ item.input = .list []) :
    handleEmbeddings tks auth env meta item vecf =
      { status := 400,
        body := .errorBody "input must be a non-empty string or a non-empty array of strings" }
    ∧ ∃ post, "input must be a non-empty string or a non-empty array of strings".toList
        = "input".toList ++ post := by
  constructor
  · unfold handleEmbeddings
    rw [if_pos (by simpa using hauth)]
    have hval : validateInputShape item.input
        = some "input must be a non-empty string or a non-empty array of strings" := by
      rcases hempty with h | h <;> rw [h] <;> rfl
    rw [hval]
  · exact ⟨" must be a non-empty string or a non-empty array of strings".toList, by decide⟩

/-- C7 witness: the empty input list is rejected with the 400 message. -/
theorem empty_input_rejected_witness :
    handleEmbeddings none none none none
      (VectorInput.mk (.list []) "minishlab/potion-base-8M" "float" none) (fun _ => []) =
      { status := 400,
        body := .errorBody "input must be a non-empty string or a non-empty array of strings" } :=
  (empty_input_rejected none none none none _ _ (by decide) (Or.inr rfl)).1

/-- C9: an authorized request that omits encoding_format, so that the field
takes its default value float, is accepted with status 200 and processed in
float format: one plain numeric entry per input row, in order. -/
theorem default_encoding_float (tks : Option (List String)) (auth : Option String)
    (env meta : Option String) (inp : PyInput) (dims : Option Int)
    (vecf : List String → List (List Nat)) (item : VectorInput)
    (hitem : item = { input := inp, model := get_available_model env meta, dimensions := dims })
    (hauth : is_authorized tks auth = true)
    (hlen : (vecf (inputTexts item)).length = (inputTexts item).length) :
    item.encoding_format = "float"
    ∧ (embed tks auth env meta item vecf).status = 200
    ∧ embed tks auth env meta item vecf =
      { status := 200,
        body := .success "list"
          (floatEntries 0 (applyDimensions item.dimensions (vecf (inputTexts item))))
          item.model (totalTokens (inputTexts item)) (totalTokens (inputTexts item)) }
    ∧ (floatEntries 0 (applyDimensions item.dimensions (vecf (inputTexts item)))).length
        = (inputTexts item).length
    ∧ ∀ e ∈ floatEntries 0 (applyDimensions item.dimensions (vecf (inputTexts item))),
        ∃ vs, e.embedding = .floats vs := by
  have hfmt : item.encoding_format = "float" := by rw [hitem]
  have hmod : item.model = get_available_model env meta := by rw [hitem]
  have heq : embed tks auth env meta item vecf =
      { status := 200,
        body := .success "list"
          (encodeData item.encoding_format (applyDimensions item.dimensions
            (vecf (inputTexts item))))
          item.model (totalTokens (inputTexts item)) (totalTokens (inputTexts item)) } := by
    unfold embed
    rw [if_pos (by simpa using hauth), if_neg (not_not_intro hmod),
      if_neg (not_not_intro (by rw [hfmt]; decide))]
  have hdata : encodeData item.encoding_format (applyDimensions item.dimensions
        (vecf (inputTexts item)))
      = floatEntries 0 (applyDimensions item.dimensions (vecf (inputTexts item))) := by
    rw [hfmt]
    simp [encodeData]
  refine ⟨hfmt, ?_, ?_, ?_, floatEntries_mem 0 _⟩
  · rw [heq]
  · rw [heq, hdata]
  · rw [floatEntries_length, applyDimensions_length]
    exact hlen

/-- C9 witness: a request with a single scalar input and no encoding_format
succeeds with status 200. -/
theorem default_encoding_float_witness :
    (VectorInput.mk (.str "Hello, how are you?") (get_available_model none none) "float"
      none).encoding_format = "float"
    ∧ (embed none none none none
        (VectorInput.mk (.str "Hello, how are you?") (get_available_model none none) "float" none)
        (fun ts => ts.map fun _ => [1, 2])).status = 200 := by
  have h := default_encoding_float none none none none (.str "Hello, how are you?") none
    (fun ts => ts.map fun _ => [1, 2])
    (VectorInput.mk (.str "Hello, how are you?") (get_available_model none none) "float" none)
    rfl (by decide) (by decide)
  exact ⟨h.1, h.2.1⟩

end T2V
